import Mathlib

/-!
Shallow embedding of the numaflow vertex autoscaler
(`pkg/reconciler/vertex/scaling/scaling.go`).

Go `float64` arithmetic is modelled with `ℚ` (all values the autoscaler
manipulates are exactly representable small rationals), `int32`/`int64`
with `ℤ` (no claim exercises wraparound), and `math.Round` / float-to-int
truncation with explicit rounding functions below.  External effects
(cluster `Get`, daemon RPCs, wall-clock time) are inputs of the evaluation
(`EvalEnv`); the outcome records the patch issued, whether the key was
removed from the watch set, whether an error was returned, and whether the
daemon section of the evaluation was reached.
-/

namespace NumaflowScaling

/-- Splitting a character list at every `'/'` (auxiliary for `splitSlash`);
`acc` holds the current field reversed. -/
def splitSlashAux : List Char → List Char → List (List Char)
  | [], acc => [acc.reverse]
  | c :: rest, acc =>
    if c = '/' then acc.reverse :: splitSlashAux rest []
    else splitSlashAux rest (c :: acc)

/-- Go `strings.Split(key, "/")`: the fields of `s` between occurrences of
`'/'` (empty fields included). -/
def splitSlash (s : String) : List String :=
  (splitSlashAux s.data []).map String.mk

/-- Go `math.Round`: round half away from zero. -/
def roundGo (q : ℚ) : ℤ :=
  if 0 ≤ q then ⌊q + 1/2⌋ else -⌊-q + 1/2⌋

/-- Go float-to-integer conversion: truncation toward zero. -/
def truncQ (q : ℚ) : ℤ :=
  if 0 ≤ q then ⌊q⌋ else ⌈q⌉

/-- Go `float64(pending)/float64(length) >= threshold` including the
division-by-zero behaviour of IEEE floats: `p/0` is `+∞` for `p > 0`
(compares `≥ thr` for any finite threshold), `-∞` for `p < 0`, and `NaN`
for `p = 0` (every comparison false). -/
def ratioGE (p l : ℤ) (thr : ℚ) : Bool :=
  if l = 0 then decide (0 < p) else decide (thr ≤ (p : ℚ) / (l : ℚ))

/-- Functional overwrite of the metrics cache (`lru.Cache.Add`); the claims
only exercise reads and overwrites, so LRU eviction is abstracted away. -/
def cacheInsert (c : String → Option ℤ) (k : String) (v : ℤ) : String → Option ℤ :=
  fun k' => if k' = k then some v else c k'

/-- A directed edge of the pipeline graph (`dfv1.Edge`): `eFrom`/`eTo` are
logical vertex names. -/
structure Edge where
  eFrom : String
  eTo : String
deriving DecidableEq, Repr

/-- The snapshot of a `dfv1.Pipeline` consumed by one evaluation.  Scalar
getters of the external v1alpha1 API (`GetDaemonServiceURL`,
`GetDesiredPhase`) are modelled by the value they return. -/
structure PipelineObj where
  ns : String
  name : String
  deleted : Bool
  desiredPhaseRunning : Bool
  daemonURL : String
  edges : List Edge

/-- The snapshot of a `dfv1.Vertex` consumed by one evaluation.  The scale
getters (`GetMinReplicas`, `GetMaxReplicas`, `GetReplicasPerScale`,
`GetCooldownSeconds`, `GetZeroReplicaSleepSeconds`,
`GetTargetProcessingSeconds`, `GetTargetBufferAvailability`) live in the
external v1alpha1 package; modelled from the spec, each field below is the
value the getter returns.  `replicasPerScale` and the duration fields are
nonnegative (`uint32`-backed config).  `sinceLastScaledSec` is
`time.Since(vertex.Status.LastScaledAt.Time).Seconds()`. -/
structure VertexObj where
  name : String
  specName : String
  pipelineName : String
  deleted : Bool
  scalable : Bool
  sinceLastScaledSec : ℚ
  phaseRunning : Bool
  statusReplicas : ℤ
  specReplicas : ℤ
  isSource : Bool
  ownedBuffers : List String
  scaleMin : ℤ
  scaleMax : ℤ
  replicasPerScale : ℕ
  cooldownSeconds : ℕ
  zeroReplicaSleepSeconds : ℕ
  targetProcessingSeconds : ℕ
  targetBufferAvailability : ℕ

/-- One partition's record from `GetVertexMetrics`: the `"default"` entries
of `ProcessingRates` and `Pendings` (`none` = key absent). -/
structure PartitionMetric where
  rate : Option ℚ
  pending : Option ℤ

/-- `BufferInfo` from `GetPipelineBuffer`: both fields are pointers in Go,
`none` = nil. -/
structure BufferInfo where
  bufferLength : Option ℤ
  bufferUsageLimit : Option ℚ

/-- Result of a cluster `client.Get`: success, a not-found error, or any
other error. -/
inductive GetResult (α : Type) where
  | ok (a : α)
  | notFound
  | err

/-- All external inputs consumed by one `scaleOneVertex` evaluation.
`newDaemonClientOk = false` models failure to obtain a daemon client
(neither cached nor constructible); `vMetrics = none` models a
`GetVertexMetrics` RPC error; `bufferGet b = none` models a
`GetPipelineBuffer` RPC error for buffer `b`. -/
structure EvalEnv where
  vertexGet : GetResult VertexObj
  pipelineGet : GetResult PipelineObj
  newDaemonClientOk : Bool
  vMetrics : Option (List PartitionMetric)
  bufferGet : String → Option BufferInfo
  cache : String → Option ℤ
  thr : ℚ

/-- What one evaluation did: whether `StopWatching(key)` was called, the
replica value passed to `patchVertexReplicas` (if any), whether an error
was returned, and whether control reached the daemon-client section
(i.e. whether daemon metrics were fetched). -/
structure EvalOutcome where
  stopped : Bool
  patched : Option ℤ
  isError : Bool
  daemonFetched : Bool
deriving DecidableEq, Repr

/-- One step of downstream-reachability closure: append the head of every
edge whose tail is already reached. -/
def reachStep (edges : List Edge) (s : List String) : List String :=
  edges.foldl (fun acc e => if e.eFrom ∈ acc ∧ e.eTo ∉ acc then acc ++ [e.eTo] else acc) s

/-- Vertex names reachable downstream from `name` (iterating the closure
step `edges.length` times reaches the fixed point). -/
def reachable (edges : List Edge) (name : String) : List String :=
  (reachStep edges)^[edges.length] [name]

/-- Modelled from the spec: `Pipeline.GetDownstreamEdges(vertexName)`
(external v1alpha1 accessor, not under `src/`) "walks all downstream edges
reachable from `vertex` in the pipeline graph"; it is embedded as the edges
whose source is reachable from `vertexName`. -/
def getDownstreamEdges (pl : PipelineObj) (vertexName : String) : List Edge :=
  pl.edges.filter (fun e => e.eFrom ∈ reachable pl.edges vertexName)

/-- The loop body of `hasBackPressure` (scaling.go:446-466): `pfx` is
`pl.Namespace + "/" + pl.Name + "-"`, `down` the accumulated
`downstreamPressure`; the `break loop` on direct pressure is the early
return of `(true, true)`. -/
def bpLoop (thr : ℚ) (cache : String → Option ℤ) (pfx vName : String) :
    List Edge → Bool → Bool × Bool
  | [], down => (false, down)
  | e :: rest, down =>
    let vertexKey := pfx ++ e.eTo
    match cache (vertexKey ++ "/pending") with
    | none => bpLoop thr cache pfx vName rest down
    | some pending =>
      match cache (vertexKey ++ "/length") with
      | none => bpLoop thr cache pfx vName rest down
      | some length =>
        if ratioGE pending length thr then
          if e.eFrom = vName then (true, true)
          else bpLoop thr cache pfx vName rest true
        else bpLoop thr cache pfx vName rest down

/-- `Scaler.hasBackPressure` (scaling.go:443-468): returns
`(directPressure, downstreamPressure)`. -/
def hasBackPressure (thr : ℚ) (cache : String → Option ℤ) (pl : PipelineObj)
    (vName : String) : Bool × Bool :=
  bpLoop thr cache (pl.ns ++ "/" ++ pl.name ++ "-") vName (getDownstreamEdges pl vName) false

/-- The body of the `desiredReplicas` loop (scaling.go:341-379) for
partition `i`, folding the running `maxDesired`. -/
def desiredStep (v : VertexObj) (partitionRates : List ℚ)
    (partitionPending partitionBufferLengths partitionAvailableBufferLengths : List ℤ)
    (maxDesired : ℤ) (i : ℕ) : ℤ :=
  let rate := partitionRates.getD i 0
  let pending := partitionPending.getD i 0
  if pending = 0 ∨ rate = 0 then maxDesired
  else
    let desired :=
      if v.isSource then
        roundGo (((pending : ℚ) / rate) / (v.targetProcessingSeconds : ℚ)
          * (v.statusReplicas : ℚ))
      else
        if pending ≥ partitionBufferLengths.getD i 0 then
          v.statusReplicas + (v.replicasPerScale : ℤ)
        else
          roundGo ((partitionAvailableBufferLengths.getD i 0 : ℚ)
            / (((partitionBufferLengths.getD i 0 - pending) : ℚ) / (v.statusReplicas : ℚ)))
    let desired := if desired = 0 then 1 else desired
    let desired := if desired > pending then pending else desired
    if desired > maxDesired then desired else maxDesired

/-- `Scaler.desiredReplicas` (scaling.go:338-381), with `float64`
arithmetic carried in `ℚ` and `math.Round` as `roundGo`. -/
def desiredReplicas (v : VertexObj) (partitionRates : List ℚ) (partitionPending : List ℤ)
    (partitionBufferLengths partitionAvailableBufferLengths : List ℤ) : ℤ :=
  (List.range partitionPending.length).foldl
    (desiredStep v partitionRates partitionPending partitionBufferLengths
      partitionAvailableBufferLengths) 1

/-- Written from the claim's words (C4): the per-partition candidate —
`none` when the partition is skipped. -/
def candidateSpec (v : VertexObj) (rate : ℚ) (pending bufLen bufAvail : ℤ) : Option ℤ :=
  if pending = 0 ∨ rate = 0 then none
  else
    let d :=
      if v.isSource then
        roundGo ((pending : ℚ) / rate / (v.targetProcessingSeconds : ℚ) * (v.statusReplicas : ℚ))
      else if pending ≥ bufLen then
        v.statusReplicas + (v.replicasPerScale : ℤ)
      else
        roundGo ((bufAvail : ℚ) / (((bufLen - pending) : ℚ) / (v.statusReplicas : ℚ)))
    let d := if d = 0 then 1 else d
    some (min d pending)

/-- Written from the claim's words (C4): the maximum over partitions,
starting from `1`, of the candidates. -/
def desiredReplicasSpec (v : VertexObj) (rates : List ℚ) (pends bufLens bufAvails : List ℤ) : ℤ :=
  ((List.range pends.length).filterMap (fun i =>
    candidateSpec v (rates.getD i 0) (pends.getD i 0) (bufLens.getD i 0)
      (bufAvails.getD i 0))).foldl max 1

/-- Lines 283-302 of `scaleOneVertex`: the desired replica count after the
zero-scale rule and the `[min, max]` clamp. -/
def clampedDesired (v : VertexObj) (totalRate : ℚ) (totalPending : ℤ)
    (pRates : List ℚ) (pPends bufLens bufAvails : List ℤ) : ℤ :=
  let d0 := if totalPending = 0 ∧ totalRate = 0 then 0
            else desiredReplicas v pRates pPends bufLens bufAvails
  let d1 := if d0 > v.scaleMax then v.scaleMax else d0
  if d1 < v.scaleMin then v.scaleMin else d1

/-- Lines 283-335 of `scaleOneVertex`: given the aggregated metrics and the
cache state at decision time, the replica value patched (`none` = no
patch). -/
def scaleDecision (v : VertexObj) (pl : PipelineObj) (thr : ℚ)
    (cache : String → Option ℤ) (totalRate : ℚ) (totalPending : ℤ)
    (pRates : List ℚ) (pPends bufLens bufAvails : List ℤ) : Option ℤ :=
  let current := v.specReplicas
  let desired := clampedDesired v totalRate totalPending pRates pPends bufLens bufAvails
  if current > v.scaleMax ∨ current < v.scaleMin then
    some desired
  else
    let maxAllowed := (v.replicasPerScale : ℤ)
    if desired < current then
      let diff := current - desired
      let diff := if diff > maxAllowed then maxAllowed else diff
      some (current - diff)
    else if desired > current then
      let bp := hasBackPressure thr cache pl v.specName
      if bp.1 then
        if current > 1 then some (current - 1) else none
      else if bp.2 then none
      else
        let diff := desired - current
        let diff := if diff > maxAllowed then maxAllowed else diff
        some (current + diff)
    else none

/-- The metrics-aggregation loop (scaling.go:238-256): `none` = some
partition lacks a usable rate or pending (the evaluation returns `nil`
without scaling).  `isb.PendingNotAvailable` is `math.MinInt64`, subsumed
by the `pending < 0` test. -/
def collectMetrics : List PartitionMetric → List ℚ × List ℤ × ℚ × ℤ →
    Option (List ℚ × List ℤ × ℚ × ℤ)
  | [], acc => some acc
  | m :: rest, (rs, ps, tr, tp) =>
    match m.rate with
    | none => none
    | some rate =>
      if rate < 0 then none
      else
        match m.pending with
        | none => none
        | some pending =>
          if pending < 0 then none
          else collectMetrics rest (rs ++ [rate], ps ++ [pending], tr + rate, tp + pending)

/-- The buffer-information loop (scaling.go:266-279): `none` = RPC error or
missing length/usage-limit field (the evaluation fails).  Accumulates
per-partition effective lengths, per-partition target-available lengths,
and their totals. -/
def collectBuffers (v : VertexObj) (get : String → Option BufferInfo) :
    List String → List ℤ × List ℤ × ℤ × ℤ → Option (List ℤ × List ℤ × ℤ × ℤ)
  | [], acc => some acc
  | b :: rest, (bl, ba, tot, tgt) =>
    match get b with
    | none => none
    | some bi =>
      match bi.bufferLength, bi.bufferUsageLimit with
      | some len, some limit =>
        let eff := truncQ ((len : ℚ) * limit)
        let avail := truncQ ((len : ℚ) * (v.targetBufferAvailability : ℚ) / 100)
        collectBuffers v get rest (bl ++ [eff], ba ++ [avail], tot + eff, tgt + avail)
      | _, _ => none

/-- `Scaler.scaleOneVertex` (scaling.go:146-336) as a function of the
external inputs of one evaluation. -/
def scaleOneVertex (env : EvalEnv) (key : String) : EvalOutcome :=
  if (splitSlash key).length ≠ 2 then ⟨false, none, true, false⟩
  else
    match env.vertexGet with
    | .err => ⟨false, none, true, false⟩
    | .notFound => ⟨true, none, false, false⟩
    | .ok v =>
      if v.deleted then ⟨true, none, false, false⟩
      else if ¬ v.scalable then ⟨true, none, false, false⟩
      else if v.sinceLastScaledSec < (v.cooldownSeconds : ℚ) then ⟨false, none, false, false⟩
      else if ¬ v.phaseRunning then ⟨false, none, false, false⟩
      else
        match env.pipelineGet with
        | .err => ⟨false, none, true, false⟩
        | .notFound => ⟨true, none, false, false⟩
        | .ok pl =>
          if pl.deleted then ⟨true, none, false, false⟩
          else if ¬ pl.desiredPhaseRunning then ⟨false, none, false, false⟩
          else if v.statusReplicas ≠ v.specReplicas then ⟨false, none, false, false⟩
          else if v.statusReplicas = 0 then
            if v.sinceLastScaledSec ≥ (v.zeroReplicaSleepSeconds : ℚ) then
              ⟨false, some 1, false, false⟩
            else ⟨false, none, false, false⟩
          else if ¬ env.newDaemonClientOk then ⟨false, none, true, true⟩
          else
            match env.vMetrics with
            | none => ⟨false, none, true, true⟩
            | some ms =>
              match collectMetrics ms ([], [], 0, 0) with
              | none => ⟨false, none, false, true⟩
              | some (pRates, pPends, totalRate, totalPending) =>
                if v.isSource then
                  ⟨false, scaleDecision v pl env.thr
                    (cacheInsert env.cache (key ++ "/pending") totalPending)
                    totalRate totalPending pRates pPends [] [], false, true⟩
                else
                  match collectBuffers v env.bufferGet v.ownedBuffers ([], [], 0, 0) with
                  | none => ⟨false, none, true, true⟩
                  | some (bufLens, bufAvails, totalBufLen, _tgtAvail) =>
                    ⟨false, scaleDecision v pl env.thr
                      (cacheInsert (cacheInsert env.cache (key ++ "/pending") totalPending)
                        (key ++ "/length") totalBufLen)
                      totalRate totalPending pRates pPends bufLens bufAvails, false, true⟩

/-- The watch set of the `Scaler` (scaling.go:42-110): `map` models the key
set of `vertexMap`, `list` the order of `vertexList`. -/
structure WatchSet where
  map : List String
  list : List String
deriving DecidableEq, Repr

/-- `NewScaler` starts with an empty map and list. -/
def WatchSet.empty : WatchSet := ⟨[], []⟩

/-- `Scaler.Contains` (scaling.go:79-84). -/
def WatchSet.containsKey (ws : WatchSet) (k : String) : Bool := ws.map.contains k

/-- `Scaler.Length` (scaling.go:87-91). -/
def WatchSet.length (ws : WatchSet) : ℕ := ws.list.length

/-- `Scaler.StartWatching` (scaling.go:94-100). -/
def WatchSet.StartWatching (ws : WatchSet) (k : String) : WatchSet :=
  if ws.map.contains k then ws else ⟨ws.map ++ [k], ws.list ++ [k]⟩

/-- `Scaler.StopWatching` (scaling.go:103-110): the Go map `delete` removes
the key, `vertexList.Remove(e)` removes the single stored element — the
first (and under the invariant only) occurrence. -/
def WatchSet.StopWatching (ws : WatchSet) (k : String) : WatchSet :=
  if ws.map.contains k then ⟨ws.map.filter (fun x => x ≠ k), ws.list.erase k⟩ else ws

/-- The watch-set representation invariant: no duplicates, and the map and
the list hold the same keys. -/
def WatchSet.inv (ws : WatchSet) : Prop :=
  ws.map.Nodup ∧ ws.list.Nodup ∧ ∀ k, k ∈ ws.map ↔ k ∈ ws.list

/-- A watch-set operation issued by an external reconciler. -/
inductive WOp where
  | start (k : String)
  | stop (k : String)

/-- Apply a sequence of watch-set operations. -/
def WatchSet.applyOps (ws : WatchSet) : List WOp → WatchSet
  | [] => ws
  | .start k :: rest => (ws.StartWatching k).applyOps rest
  | .stop k :: rest => (ws.StopWatching k).applyOps rest

/-- A concrete source vertex: spec = status = 2 replicas, `[min, max] =
[2, 5]`, step 2, past cooldown.  Used for the C1 counterexample. -/
def vC1 : VertexObj :=
  ⟨"mypl-src", "src", "mypl", false, true, 1000, true, 2, 2, true, [], 2, 5, 2, 90, 120, 20, 25⟩

/-- A concrete pipeline with the single edge `src → out`. -/
def plC1 : PipelineObj := ⟨"ns", "mypl", false, true, "url", [⟨"src", "out"⟩]⟩

/-- Cache holding pressure data for `out`: 950/1000 ≥ 0.9. -/
def cacheC1 : String → Option ℤ := fun k =>
  if k = "ns/mypl-out/pending" then some 950
  else if k = "ns/mypl-out/length" then some 1000
  else none

/-- Environment for the C1 counterexample: metrics rate 100, pending 4000
(desired 4 > current 2), direct back pressure cached. -/
def envC1 : EvalEnv :=
  ⟨.ok vC1, .ok plC1, true, some [⟨some 100, some 4000⟩], fun _ => none, cacheC1, 9/10⟩

/-- A source vertex with `replicasPerScale = 0`, spec = status = 2,
`[min, max] = [1, 5]`.  Used for the C5 counterexample. -/
def vC5 : VertexObj :=
  ⟨"mypl-src", "src", "mypl", false, true, 1000, true, 2, 2, true, [], 1, 5, 0, 90, 120, 20, 25⟩

/-- Environment for the C5 counterexample: desired 4 > current 2 and direct
back pressure, so the evaluation patches `current - 1` although the step is
0. -/
def envC5 : EvalEnv :=
  ⟨.ok vC5, .ok plC1, true, some [⟨some 100, some 4000⟩], fun _ => none, cacheC1, 9/10⟩

/-- A source vertex with spec = status = 3, `[min, max] = [0, 50]`, step 2.
Used for the C2 counterexample (the S2 scenario of the spec). -/
def vC2 : VertexObj :=
  ⟨"mypl-src", "src", "mypl", false, true, 1000, true, 3, 3, true, [], 0, 50, 2, 90, 120, 20, 25⟩

/-- Environment for the C2 counterexample: two partitions, all rates and
pendings zero. -/
def envC2 : EvalEnv :=
  ⟨.ok vC2, .ok plC1, true, some [⟨some 0, some 0⟩, ⟨some 0, some 0⟩],
    fun _ => none, fun _ => none, 9/10⟩

/-- A source vertex whose spec replicas (2) sit below `min = 5`
(`[min, max] = [5, 10]`).  Used for the C3 counterexample. -/
def vC3 : VertexObj :=
  ⟨"mypl-src", "src", "mypl", false, true, 1000, true, 2, 2, true, [], 5, 10, 2, 90, 120, 20, 25⟩

/-- A vertex scaled to zero (status = spec = 0) that has slept 500 s,
beyond `zeroReplicaSleepSeconds = 120`.  Used for the C6 witness. -/
def vC6 : VertexObj :=
  ⟨"mypl-src", "src", "mypl", false, true, 500, true, 0, 0, true, [], 0, 50, 2, 90, 120, 20, 25⟩

/-- Environment for the C6 witness: the daemon side is made unusable
(`vMetrics = none`) to exhibit that the peek path never consults it. -/
def envC6 : EvalEnv :=
  ⟨.ok vC6, .ok plC1, true, none, fun _ => none, fun _ => none, 9/10⟩

/-- A vertex still in cooldown: last scaled 10 s ago with
`cooldownSeconds = 90`.  Used for the C7 witness. -/
def vC7 : VertexObj :=
  ⟨"mypl-src", "src", "mypl", false, true, 10, true, 2, 2, true, [], 0, 50, 2, 90, 120, 20, 25⟩

/-- Environment for the C7 witness. -/
def envC7 : EvalEnv :=
  ⟨.ok vC7, .ok plC1, true, none, fun _ => none, fun _ => none, 9/10⟩

/-- Environment for the C8 witness: the cluster Get for the vertex returns
not-found. -/
def envC8 : EvalEnv :=
  ⟨.notFound, .ok plC1, true, none, fun _ => none, fun _ => none, 9/10⟩

/-- A watch set containing exactly the C8 witness key. -/
def wsC8 : WatchSet := ⟨["ns/mypl-src"], ["ns/mypl-src"]⟩

lemma inv_StartWatching {ws : WatchSet} (k : String) (h : ws.inv) :
    (ws.StartWatching k).inv := by
  obtain ⟨hm, hl, hiff⟩ := h
  simp only [WatchSet.StartWatching]
  split
  · exact ⟨hm, hl, hiff⟩
  · next hc =>
    refine ⟨?_, ?_, ?_⟩
    · simp only [List.nodup_append, List.nodup_cons, List.nodup_nil]
      refine ⟨hm, by simp, ?_⟩
      intro a ha hb
      simp only [List.mem_singleton] at hb
      subst hb
      exact hc (by simpa using ha)
    · simp only [List.nodup_append, List.nodup_cons, List.nodup_nil]
      refine ⟨hl, by simp, ?_⟩
      intro a ha hb
      simp only [List.mem_singleton] at hb
      subst hb
      exact hc (by simpa using (hiff a).mpr ha)
    · intro a
      simp [List.mem_append, hiff a]

lemma inv_StopWatching {ws : WatchSet} (k : String) (h : ws.inv) :
    (ws.StopWatching k).inv := by
  obtain ⟨hm, hl, hiff⟩ := h
  simp only [WatchSet.StopWatching]
  split
  · refine ⟨List.Nodup.filter _ hm, List.Nodup.erase _ hl, ?_⟩
    intro a
    rw [List.mem_filter, List.Nodup.mem_erase_iff hl]
    simp [hiff a, and_comm]
  · exact ⟨hm, hl, hiff⟩

lemma inv_applyOps {ws : WatchSet} (h : ws.inv) :
    ∀ ops : List WOp, (ws.applyOps ops).inv := by
  intro ops
  induction ops generalizing ws with
  | nil => exact h
  | cons op rest ih =>
    cases op with
    | start k => exact ih (inv_StartWatching k h)
    | stop k => exact ih (inv_StopWatching k h)

lemma StopWatching_effect {ws : WatchSet} {k : String} (hinv : ws.inv)
    (hc : ws.containsKey k = true) :
    (ws.StopWatching k).containsKey k = false ∧ (ws.StopWatching k).length + 1 = ws.length := by
  obtain ⟨_, hl, hiff⟩ := hinv
  have hc' : ws.map.contains k = true := hc
  have hmem : k ∈ ws.map := by simpa using hc'
  have hmeml : k ∈ ws.list := (hiff k).mp hmem
  have hpos : 0 < ws.list.length := List.length_pos_of_mem hmeml
  have herase := List.length_erase_of_mem hmeml
  constructor
  · simp [WatchSet.StopWatching, hc', WatchSet.containsKey, List.mem_filter, hmem]
  · simp only [WatchSet.StopWatching, hc', if_true, WatchSet.length, herase]
    omega

lemma StartWatching_idem (ws : WatchSet) (k : String) :
    (ws.StartWatching k).StartWatching k = ws.StartWatching k := by
  simp only [WatchSet.StartWatching]
  split
  · next hc => simp [hc]
  · next hc => simp

lemma StopWatching_idem (ws : WatchSet) (k : String) :
    (ws.StopWatching k).StopWatching k = ws.StopWatching k := by
  simp only [WatchSet.StopWatching]
  split
  · next hc => simp [List.mem_filter]
  · next hc => simp [hc]

lemma StartWatching_absent {ws : WatchSet} {k : String} (hc : ws.containsKey k = false) :
    (ws.StartWatching k).map = ws.map ++ [k] ∧ (ws.StartWatching k).list = ws.list ++ [k] := by
  have hc' : ws.map.contains k = false := hc
  have hnm : k ∉ ws.map := by simpa using hc'
  simp [WatchSet.StartWatching, hnm]

lemma StartWatching_present {ws : WatchSet} {k : String} (hc : ws.containsKey k = true) :
    ws.StartWatching k = ws := by
  have hc' : ws.map.contains k = true := hc
  have hm : k ∈ ws.map := by simpa using hc'
  simp [WatchSet.StartWatching, hm]

lemma bpLoop_direct_le (thr : ℚ) (cache : String → Option ℤ) (pfx vName : String) :
    ∀ (l : List Edge) (down : Bool), (bpLoop thr cache pfx vName l down).1 = true →
      (bpLoop thr cache pfx vName l down).2 = true := by
  intro l
  induction l with
  | nil => intro down h; simp [bpLoop] at h
  | cons e rest ih =>
    intro down h
    rw [bpLoop] at h ⊢
    rcases hpend : cache (pfx ++ e.eTo ++ "/pending") with _ | pending
    · rw [hpend] at h; dsimp only at h ⊢; exact ih down h
    · rw [hpend] at h
      dsimp only at h ⊢
      rcases hlen : cache (pfx ++ e.eTo ++ "/length") with _ | len
      · rw [hlen] at h; dsimp only at h ⊢; exact ih down h
      · rw [hlen] at h
        dsimp only at h ⊢
        by_cases hr : ratioGE pending len thr = true
        · rw [if_pos hr] at h ⊢
          by_cases hf : e.eFrom = vName
          · rw [if_pos hf]
          · rw [if_neg hf] at h ⊢; exact ih true h
        · rw [if_neg hr] at h ⊢; exact ih down h

lemma bpLoop_direct_of_mem (thr : ℚ) (cache : String → Option ℤ) (pfx vName : String) :
    ∀ (l : List Edge) (down : Bool) (e : Edge), e ∈ l → e.eFrom = vName →
      (∃ p len, cache (pfx ++ e.eTo ++ "/pending") = some p ∧
        cache (pfx ++ e.eTo ++ "/length") = some len ∧ ratioGE p len thr = true) →
      (bpLoop thr cache pfx vName l down).1 = true := by
  intro l
  induction l with
  | nil => intro down e he; simp at he
  | cons a rest ih =>
    intro down e he hf ⟨p, len, hp, hl, hr⟩
    rw [bpLoop]
    rcases List.mem_cons.mp he with rfl | hmem
    · rw [hp]
      dsimp only
      rw [hl]
      dsimp only
      rw [if_pos hr, if_pos hf]
    · rcases hpend : cache (pfx ++ a.eTo ++ "/pending") with _ | pending
      · dsimp only; exact ih down e hmem hf ⟨p, len, hp, hl, hr⟩
      · dsimp only
        rcases hlen : cache (pfx ++ a.eTo ++ "/length") with _ | alen
        · dsimp only; exact ih down e hmem hf ⟨p, len, hp, hl, hr⟩
        · dsimp only
          by_cases har : ratioGE pending alen thr = true
          · rw [if_pos har]
            by_cases haf : a.eFrom = vName
            · rw [if_pos haf]
            · rw [if_neg haf]; exact ih true e hmem hf ⟨p, len, hp, hl, hr⟩
          · rw [if_neg har]; exact ih down e hmem hf ⟨p, len, hp, hl, hr⟩

lemma reachStep_mono (edges : List Edge) :
    ∀ (s : List String) (x : String), x ∈ s → x ∈ reachStep edges s := by
  intro s x hx
  unfold reachStep
  induction edges generalizing s with
  | nil => exact hx
  | cons e rest ih =>
    simp only [List.foldl_cons]
    refine ih _ ?_
    split
    · exact List.mem_append_left _ hx
    · exact hx

lemma mem_reachable_self (edges : List Edge) (name : String) :
    name ∈ reachable edges name := by
  unfold reachable
  generalize edges.length = n
  induction n with
  | zero => simp
  | succ m ih =>
    rw [Function.iterate_succ_apply']
    exact reachStep_mono edges _ name ih

lemma direct_edge_mem_downstream {pl : PipelineObj} {e : Edge} (he : e ∈ pl.edges)
    (hf : e.eFrom = vName) : e ∈ getDownstreamEdges pl vName := by
  rw [getDownstreamEdges, List.mem_filter]
  exact ⟨he, by simp [hf, mem_reachable_self]⟩

lemma desiredStep_eq_candidate (v : VertexObj) (rates : List ℚ)
    (pends bufLens bufAvails : List ℤ) (m : ℤ) (i : ℕ) :
    desiredStep v rates pends bufLens bufAvails m i =
      match candidateSpec v (rates.getD i 0) (pends.getD i 0) (bufLens.getD i 0)
          (bufAvails.getD i 0) with
      | none => m
      | some d => max m d := by
  by_cases h : pends.getD i 0 = 0 ∨ rates.getD i 0 = 0
  · simp only [desiredStep, candidateSpec, if_pos h]
  · simp only [desiredStep, candidateSpec, if_neg h]
    generalize (if v.isSource = true then
        roundGo (((pends.getD i 0 : ℚ) / rates.getD i 0) / (v.targetProcessingSeconds : ℚ)
          * (v.statusReplicas : ℚ))
      else if pends.getD i 0 ≥ bufLens.getD i 0 then
        v.statusReplicas + (v.replicasPerScale : ℤ)
      else roundGo ((bufAvails.getD i 0 : ℚ)
        / (((bufLens.getD i 0 - pends.getD i 0) : ℚ) / (v.statusReplicas : ℚ)))) = d0
    simp only [max_def, min_def]
    split_ifs <;> omega

lemma foldl_desiredStep_eq (v : VertexObj) (rates : List ℚ)
    (pends bufLens bufAvails : List ℤ) :
    ∀ (l : List ℕ) (init : ℤ),
      l.foldl (desiredStep v rates pends bufLens bufAvails) init =
      (l.filterMap (fun i => candidateSpec v (rates.getD i 0) (pends.getD i 0)
        (bufLens.getD i 0) (bufAvails.getD i 0))).foldl max init := by
  intro l
  induction l with
  | nil => intro init; rfl
  | cons i t ih =>
    intro init
    simp only [List.foldl_cons, List.filterMap_cons]
    rw [desiredStep_eq_candidate]
    rcases h : candidateSpec v (rates.getD i 0) (pends.getD i 0) (bufLens.getD i 0)
        (bufAvails.getD i 0) with _ | d
    · exact ih init
    · simp only [List.foldl_cons]
      exact ih (max init d)

lemma clampedDesired_bounds (v : VertexObj) (tr : ℚ) (tp : ℤ) (rs : List ℚ)
    (ps bl ba : List ℤ) (hmm : v.scaleMin ≤ v.scaleMax) :
    v.scaleMin ≤ clampedDesired v tr tp rs ps bl ba ∧
      clampedDesired v tr tp rs ps bl ba ≤ v.scaleMax := by
  simp only [clampedDesired]
  split_ifs <;> omega

lemma scaleDecision_range {v : VertexObj} {pl : PipelineObj} {thr : ℚ}
    {cache : String → Option ℤ} {tr : ℚ} {tp : ℤ} {rs : List ℚ} {ps bl ba : List ℤ} {p : ℤ}
    (hmin : v.scaleMin ≤ v.specReplicas) (hmax : v.specReplicas ≤ v.scaleMax)
    (h : scaleDecision v pl thr cache tr tp rs ps bl ba = some p) :
    (v.scaleMin - 1 ≤ p ∧ p ≤ v.scaleMax) ∧
      ((p - v.specReplicas).natAbs ≤ 1 ∨ (p - v.specReplicas).natAbs ≤ v.replicasPerScale) := by
  have hc := clampedDesired_bounds v tr tp rs ps bl ba (le_trans hmin hmax)
  simp only [scaleDecision] at h
  rw [if_neg (by omega : ¬(v.specReplicas > v.scaleMax ∨ v.specReplicas < v.scaleMin))] at h
  split_ifs at h <;> simp only [Option.some.injEq, reduceCtorEq] at h <;> omega

lemma scaleOneVertex_patch_shape (env : EvalEnv) (key : String) (p : ℤ)
    (hp : (scaleOneVertex env key).patched = some p) :
    (∃ v, env.vertexGet = .ok v ∧ v.statusReplicas = 0 ∧ v.specReplicas = 0 ∧ p = 1) ∨
    (∃ v pl cache tr tp rs ps bl ba, env.vertexGet = .ok v ∧ env.pipelineGet = .ok pl ∧
      v.statusReplicas ≠ 0 ∧
      scaleDecision v pl env.thr cache tr tp rs ps bl ba = some p) := by
  unfold scaleOneVertex at hp
  by_cases hk : (splitSlash key).length ≠ 2
  · rw [if_pos hk] at hp; simp at hp
  rw [if_neg hk] at hp
  rcases hv : env.vertexGet with v | _ | _
  rotate_left
  · rw [hv] at hp; simp at hp
  · rw [hv] at hp; simp at hp
  rw [hv] at hp
  dsimp only at hp
  by_cases hdel : v.deleted = true
  · rw [if_pos hdel] at hp; simp at hp
  rw [if_neg hdel] at hp
  by_cases hsc : ¬ v.scalable = true
  · rw [if_pos hsc] at hp; simp at hp
  rw [if_neg hsc] at hp
  by_cases hcd : v.sinceLastScaledSec < (v.cooldownSeconds : ℚ)
  · rw [if_pos hcd] at hp; simp at hp
  rw [if_neg hcd] at hp
  by_cases hph : ¬ v.phaseRunning = true
  · rw [if_pos hph] at hp; simp at hp
  rw [if_neg hph] at hp
  rcases hpl : env.pipelineGet with pl | _ | _
  rotate_left
  · rw [hpl] at hp; simp at hp
  · rw [hpl] at hp; simp at hp
  rw [hpl] at hp
  dsimp only at hp
  by_cases hpd : pl.deleted = true
  · rw [if_pos hpd] at hp; simp at hp
  rw [if_neg hpd] at hp
  by_cases hpr : ¬ pl.desiredPhaseRunning = true
  · rw [if_pos hpr] at hp; simp at hp
  rw [if_neg hpr] at hp
  by_cases hrepl : v.statusReplicas ≠ v.specReplicas
  · rw [if_pos hrepl] at hp; simp at hp
  rw [if_neg hrepl] at hp
  by_cases hzero : v.statusReplicas = 0
  · rw [if_pos hzero] at hp
    by_cases hsleep : v.sinceLastScaledSec ≥ (v.zeroReplicaSleepSeconds : ℚ)
    · rw [if_pos hsleep] at hp
      simp only [Option.some.injEq] at hp
      exact Or.inl ⟨v, rfl, hzero, by omega, hp.symm⟩
    · rw [if_neg hsleep] at hp; simp at hp
  rw [if_neg hzero] at hp
  by_cases hcl : ¬ env.newDaemonClientOk = true
  · rw [if_pos hcl] at hp; simp at hp
  rw [if_neg hcl] at hp
  rcases hm : env.vMetrics with _ | ms
  · rw [hm] at hp; simp at hp
  rw [hm] at hp
  dsimp only at hp
  rcases hcm : collectMetrics ms ([], [], 0, 0) with _ | ⟨pRates, pPends, totalRate, totalPending⟩
  · rw [hcm] at hp; simp at hp
  rw [hcm] at hp
  dsimp only at hp
  by_cases hsrc : v.isSource = true
  · rw [if_pos hsrc] at hp
    dsimp only at hp
    exact Or.inr ⟨v, pl, _, _, _, _, _, _, _, rfl, rfl, hzero, hp⟩
  rw [if_neg hsrc] at hp
  rcases hcb : collectBuffers v env.bufferGet v.ownedBuffers ([], [], 0, 0) with
    _ | ⟨bufLens, bufAvails, totalBufLen, tgtAvail⟩
  · rw [hcb] at hp; simp at hp
  rw [hcb] at hp
  dsimp only at hp
  exact Or.inr ⟨v, pl, _, _, _, _, _, _, _, rfl, rfl, hzero, hp⟩

lemma envC1_patches_one : (scaleOneVertex envC1 "ns/mypl-src").patched = some 1 := by
  simp +decide [scaleOneVertex, envC1, vC1, plC1, cacheC1, splitSlash, splitSlashAux,
    collectMetrics, cacheInsert, scaleDecision, clampedDesired, desiredReplicas, desiredStep,
    hasBackPressure, getDownstreamEdges, reachable, reachStep, bpLoop, ratioGE, roundGo,
    show List.range 1 = [0] from by decide]
  norm_num

/-- Claim C1, amended: for every evaluation of a vertex whose spec replicas
lie inside `[min, max]`, any replica value written by a patch is either the
zero-replica peek (status replicas 0, value exactly 1) or lies in
`[min - 1, max]`: the direct-back-pressure patch of `current - 1` can land
one below `min` (when `current = min`), all other patches stay in
`[min, max]`. -/
theorem C1_clamp_law_amended (env : EvalEnv) (key : String) (v : VertexObj) (p : ℤ)
    (hv : env.vertexGet = .ok v)
    (hmin : v.scaleMin ≤ v.specReplicas) (hmax : v.specReplicas ≤ v.scaleMax)
    (hp : (scaleOneVertex env key).patched = some p) :
    (v.statusReplicas = 0 ∧ p = 1) ∨ (v.scaleMin - 1 ≤ p ∧ p ≤ v.scaleMax) := by
  rcases scaleOneVertex_patch_shape env key p hp with
    ⟨v', hv', hz, _, hp1⟩ | ⟨v', pl, c, tr, tp, rs, ps, bl, ba, hv', hpl, hnz, hd⟩
  · rw [hv] at hv'
    injection hv' with h
    subst h
    exact Or.inl ⟨hz, hp1⟩
  · rw [hv] at hv'
    injection hv' with h
    subst h
    exact Or.inr (scaleDecision_range hmin hmax hd).1

/-- Claim C1 witness: the amended bound instantiated on a concrete
evaluation that patches. -/
theorem C1_clamp_law_witness :
    (scaleOneVertex envC1 "ns/mypl-src").patched = some 1 ∧
    ((vC1.statusReplicas = 0 ∧ (1 : ℤ) = 1) ∨
      (vC1.scaleMin - 1 ≤ (1 : ℤ) ∧ (1 : ℤ) ≤ vC1.scaleMax)) :=
  ⟨envC1_patches_one,
    C1_clamp_law_amended envC1 "ns/mypl-src" vC1 1 rfl (by decide) (by decide)
      envC1_patches_one⟩

/-- Claim C1 counterexample: with `[min, max] = [2, 5]` and
spec = status = 2, metrics giving desired 4 and direct back pressure
cached, the evaluation patches 1 — outside `[min, max]` and not a
zero-replica peek. -/
theorem C1_clamp_law_counterexample :
    vC1.scaleMin ≤ vC1.specReplicas ∧ vC1.specReplicas ≤ vC1.scaleMax ∧
    vC1.statusReplicas ≠ 0 ∧
    (scaleOneVertex envC1 "ns/mypl-src").patched = some 1 ∧
    ¬ (vC1.scaleMin ≤ (1 : ℤ) ∧ (1 : ℤ) ≤ vC1.scaleMax) :=
  ⟨by decide, by decide, by decide, envC1_patches_one, by decide⟩

lemma envC5_patches_one : (scaleOneVertex envC5 "ns/mypl-src").patched = some 1 := by
  simp +decide [scaleOneVertex, envC5, vC5, plC1, cacheC1, splitSlash, splitSlashAux,
    collectMetrics, cacheInsert, scaleDecision, clampedDesired, desiredReplicas, desiredStep,
    hasBackPressure, getDownstreamEdges, reachable, reachStep, bpLoop, ratioGE, roundGo,
    show List.range 1 = [0] from by decide]
  norm_num

/-- Claim C5, amended: whenever `min ≤ current ≤ max` (spec replicas), any
patched value differs from `current` by at most `max 1 replicasPerScale`
(stated as the disjunction of the two bounds): the direct-back-pressure
patch of `current - 1` and the zero-replica peek move by 1 even when
`replicasPerScale = 0`. -/
theorem C5_step_law_amended (env : EvalEnv) (key : String) (v : VertexObj) (p : ℤ)
    (hv : env.vertexGet = .ok v)
    (hmin : v.scaleMin ≤ v.specReplicas) (hmax : v.specReplicas ≤ v.scaleMax)
    (hp : (scaleOneVertex env key).patched = some p) :
    (p - v.specReplicas).natAbs ≤ 1 ∨ (p - v.specReplicas).natAbs ≤ v.replicasPerScale := by
  rcases scaleOneVertex_patch_shape env key p hp with
    ⟨v', hv', _, hz2, hp1⟩ | ⟨v', pl, c, tr, tp, rs, ps, bl, ba, hv', hpl, hnz, hd⟩
  · rw [hv] at hv'
    injection hv' with h
    subst h
    left
    omega
  · rw [hv] at hv'
    injection hv' with h
    subst h
    exact (scaleDecision_range hmin hmax hd).2

/-- Claim C5 witness: the amended bound instantiated on a concrete
evaluation that patches. -/
theorem C5_step_law_witness :
    ((1 : ℤ) - vC1.specReplicas).natAbs ≤ 1 ∨
      ((1 : ℤ) - vC1.specReplicas).natAbs ≤ vC1.replicasPerScale :=
  C5_step_law_amended envC1 "ns/mypl-src" vC1 1 rfl (by decide) (by decide) envC1_patches_one

/-- Claim C5 counterexample: with `replicasPerScale = 0`,
`[min, max] = [1, 5]`, spec = status = 2, desired 4 and direct back
pressure, the evaluation patches 1, so `|patched - current| = 1 > step`. -/
theorem C5_step_law_counterexample :
    vC5.scaleMin ≤ vC5.specReplicas ∧ vC5.specReplicas ≤ vC5.scaleMax ∧
    (scaleOneVertex envC5 "ns/mypl-src").patched = some 1 ∧
    ¬ (((1 : ℤ) - vC5.specReplicas).natAbs ≤ vC5.replicasPerScale) :=
  ⟨by decide, by decide, envC5_patches_one, by decide⟩

/-- Claim C2, amended: an evaluation reaching the desired-replica
computation with `totalPending = 0`, `totalRate = 0`, `0 ≤ min ≤ current ≤
max` and `current > 0` scales toward zero only step-limited: it patches
`max min (current - replicasPerScale)` when `current > min`, and issues no
patch when `current = min`. -/
theorem C2_zero_scale_amended (v : VertexObj) (pl : PipelineObj) (thr : ℚ)
    (cache : String → Option ℤ) (rs : List ℚ) (ps bl ba : List ℤ)
    (hmin0 : 0 ≤ v.scaleMin) (hmin : v.scaleMin ≤ v.specReplicas)
    (hmax : v.specReplicas ≤ v.scaleMax) (_hpos : 0 < v.specReplicas) :
    scaleDecision v pl thr cache 0 0 rs ps bl ba =
      if v.scaleMin < v.specReplicas
      then some (max v.scaleMin (v.specReplicas - (v.replicasPerScale : ℤ)))
      else none := by
  have hdes : clampedDesired v 0 0 rs ps bl ba = v.scaleMin := by
    norm_num [clampedDesired]
    split_ifs <;> omega
  simp only [scaleDecision, hdes]
  rw [if_neg (by omega : ¬(v.specReplicas > v.scaleMax ∨ v.specReplicas < v.scaleMin))]
  by_cases hlt : v.scaleMin < v.specReplicas
  · rw [if_pos hlt, if_pos hlt]
    simp only [Option.some.injEq, max_def]
    split_ifs <;> omega
  · rw [if_neg hlt, if_neg hlt, if_neg (by omega : ¬ v.scaleMin > v.specReplicas)]

/-- Claim C2 witness: the amended statement instantiated at
`current = 3, min = 0, step = 2`, patching `max 0 (3 - 2) = 1`. -/
theorem C2_zero_scale_witness :
    scaleDecision vC2 plC1 (9/10) (fun _ => none) 0 0 [0, 0] [0, 0] [] [] = some 1 := by
  rw [C2_zero_scale_amended vC2 plC1 (9/10) (fun _ => none) [0, 0] [0, 0] [] []
    (by decide) (by decide) (by decide) (by decide)]
  decide

lemma envC2_patches_one : (scaleOneVertex envC2 "ns/mypl-src").patched = some 1 := by
  simp +decide [scaleOneVertex, envC2, vC2, plC1, splitSlash, splitSlashAux,
    collectMetrics, cacheInsert, scaleDecision, clampedDesired, desiredReplicas, desiredStep,
    hasBackPressure, getDownstreamEdges, reachable, reachStep, bpLoop, ratioGE, roundGo,
    show List.range 2 = [0, 1] from by decide]

/-- Claim C2 counterexample: a full evaluation with all rates and pendings
zero and `current = 3` (min 0, step 2) patches 1, not 0 — scale-to-zero
goes through the step limiter. -/
theorem C2_zero_scale_counterexample :
    0 < vC2.specReplicas ∧
    (scaleOneVertex envC2 "ns/mypl-src").patched = some 1 ∧
    ¬ ((scaleOneVertex envC2 "ns/mypl-src").patched = some 0) :=
  ⟨by decide, envC2_patches_one, by rw [envC2_patches_one]; decide⟩

/-- Claim C3, amended: when additionally `min ≤ current ≤ max`, an
evaluation with clamped desired `> current` and a directly connected
downstream edge whose destination has cached pending/length with ratio `≥`
the threshold patches `current - 1` when `current > 1` and issues no patch
when `current = 1`.  (Outside `[min, max]` the evaluation instead patches
the clamped desired directly.) -/
theorem C3_backpressure_gate_amended (v : VertexObj) (pl : PipelineObj) (thr : ℚ)
    (cache : String → Option ℤ) (tr : ℚ) (tp : ℤ) (rs : List ℚ) (ps bl ba : List ℤ)
    (hmin : v.scaleMin ≤ v.specReplicas) (hmax : v.specReplicas ≤ v.scaleMax)
    (hdes : v.specReplicas < clampedDesired v tr tp rs ps bl ba)
    (hedge : ∃ e ∈ pl.edges, e.eFrom = v.specName ∧ ∃ pd ln,
      cache (pl.ns ++ "/" ++ pl.name ++ "-" ++ e.eTo ++ "/pending") = some pd ∧
      cache (pl.ns ++ "/" ++ pl.name ++ "-" ++ e.eTo ++ "/length") = some ln ∧
      ratioGE pd ln thr = true) :
    scaleDecision v pl thr cache tr tp rs ps bl ba =
      if 1 < v.specReplicas then some (v.specReplicas - 1) else none := by
  have hdir : (hasBackPressure thr cache pl v.specName).1 = true := by
    obtain ⟨e, he, hf, pd, ln, hpd, hln, hr⟩ := hedge
    unfold hasBackPressure
    exact bpLoop_direct_of_mem thr cache (pl.ns ++ "/" ++ pl.name ++ "-") v.specName
      (getDownstreamEdges pl v.specName) false e (direct_edge_mem_downstream he hf) hf
      ⟨pd, ln, hpd, hln, hr⟩
  simp only [scaleDecision]
  rw [if_neg (by omega : ¬(v.specReplicas > v.scaleMax ∨ v.specReplicas < v.scaleMin)),
    if_neg (by omega : ¬ clampedDesired v tr tp rs ps bl ba < v.specReplicas),
    if_pos hdes, if_pos hdir]

/-- Claim C3 witness: in range `[2, 5]` with desired 4 > current 2 and
direct pressure cached, the decision is `current - 1 = 1`. -/
theorem C3_backpressure_gate_witness :
    scaleDecision vC1 plC1 (9/10) cacheC1 100 4000 [100] [4000] [] [] = some 1 := by
  rw [C3_backpressure_gate_amended vC1 plC1 (9/10) cacheC1 100 4000 [100] [4000] [] []
    (by decide) (by decide)
    (by norm_num [clampedDesired, desiredReplicas, desiredStep, roundGo, vC1,
      show List.range 1 = [0] from by decide])
    ⟨⟨"src", "out"⟩, by decide, by decide, 950, 1000, by decide, by decide,
      by norm_num [ratioGE]⟩]
  decide

/-- Claim C3 counterexample: all antecedents of the claim hold (clamped
desired 5 > current 2, direct pressure cached, current > 1) but, because
`current = 2` lies below `min = 5`, the evaluation patches 5, not
`current - 1 = 1`. -/
theorem C3_backpressure_gate_counterexample :
    vC3.specReplicas < clampedDesired vC3 100 4000 [100] [4000] [] [] ∧
    (⟨"src", "out"⟩ : Edge) ∈ plC1.edges ∧
    (⟨"src", "out"⟩ : Edge).eFrom = vC3.specName ∧
    cacheC1 ("ns" ++ "/" ++ "mypl" ++ "-" ++ "out" ++ "/pending") = some 950 ∧
    cacheC1 ("ns" ++ "/" ++ "mypl" ++ "-" ++ "out" ++ "/length") = some 1000 ∧
    ratioGE 950 1000 (9/10) = true ∧
    1 < vC3.specReplicas ∧
    scaleDecision vC3 plC1 (9/10) cacheC1 100 4000 [100] [4000] [] [] = some 5 ∧
    (5 : ℤ) ≠ vC3.specReplicas - 1 := by
  refine ⟨?_, by decide, by decide, by decide, by decide, by norm_num [ratioGE],
    by decide, ?_, by decide⟩
  · norm_num [clampedDesired, desiredReplicas, desiredStep, roundGo, vC3,
      show List.range 1 = [0] from by decide]
  · norm_num [scaleDecision, clampedDesired, desiredReplicas, desiredStep, roundGo, vC3,
      show List.range 1 = [0] from by decide]

/-- Claim C4: `desiredReplicas` computes, for aligned per-partition arrays,
the maximum over partitions (starting from 1) of the candidate described by
the spec: skip partitions with zero pending or rate; source candidate
`round((pending/rate)/targetProcessingSeconds × status.Replicas)`;
non-source candidate `status.Replicas + replicasPerScale` when
`pending ≥ effective buffer length`, else
`round(targetAvailable / ((bufferLength − pending)/status.Replicas))`;
candidates of 0 become 1 and are clamped to the partition's pending. -/
theorem C4_desiredReplicas_formula (v : VertexObj) (rates : List ℚ)
    (pends bufLens bufAvails : List ℤ) :
    desiredReplicas v rates pends bufLens bufAvails =
      desiredReplicasSpec v rates pends bufLens bufAvails := by
  unfold desiredReplicas desiredReplicasSpec
  exact foldl_desiredStep_eq v rates pends bufLens bufAvails (List.range pends.length) 1

/-- Claim C6: an evaluation reaching gate 10 with status replicas 0 patches
exactly 1 when the vertex has slept at least `zeroReplicaSleepSeconds`, and
issues no patch otherwise; in both cases `daemonFetched = false` — no
daemon metrics are consulted. -/
theorem C6_zero_replica_peek (env : EvalEnv) (key : String) (v : VertexObj) (pl : PipelineObj)
    (hk : (splitSlash key).length = 2)
    (hv : env.vertexGet = .ok v)
    (hdel : v.deleted = false) (hsc : v.scalable = true)
    (hcd : ¬ v.sinceLastScaledSec < (v.cooldownSeconds : ℚ))
    (hph : v.phaseRunning = true)
    (hpl : env.pipelineGet = .ok pl) (hpd : pl.deleted = false)
    (hpr : pl.desiredPhaseRunning = true)
    (hrepl : v.statusReplicas = v.specReplicas) (hzero : v.statusReplicas = 0) :
    scaleOneVertex env key =
      if v.sinceLastScaledSec ≥ (v.zeroReplicaSleepSeconds : ℚ)
      then ⟨false, some 1, false, false⟩ else ⟨false, none, false, false⟩ := by
  unfold scaleOneVertex
  rw [if_neg (by simp [hk]), hv]
  dsimp only
  rw [if_neg (by simp [hdel]), if_neg (by simp [hsc]), if_neg hcd, if_neg (by simp [hph]),
    hpl]
  dsimp only
  rw [if_neg (by simp [hpd]), if_neg (by simp [hpr]), if_neg (by simp [hrepl]),
    if_pos hzero]

/-- Claim C6 witness: a zero-replica vertex that has slept 500 s (≥ 120)
patches exactly 1 without consulting the daemon (whose metrics are even
unavailable in this environment). -/
theorem C6_zero_replica_peek_witness :
    scaleOneVertex envC6 "ns/mypl-src" = ⟨false, some 1, false, false⟩ ∧
    envC6.vMetrics = none := by
  constructor
  · rw [C6_zero_replica_peek envC6 "ns/mypl-src" vC6 plC1 (by decide) rfl rfl rfl
      (by norm_num [vC6]) rfl rfl rfl rfl rfl rfl]
    rw [if_pos (by norm_num [vC6])]
  · rfl

/-- Claim C7: if the time since the vertex's last scale is strictly below
`cooldownSeconds`, the evaluation issues no patch and returns success. -/
theorem C7_cooldown_no_patch (env : EvalEnv) (key : String) (v : VertexObj)
    (hk : (splitSlash key).length = 2)
    (hv : env.vertexGet = .ok v)
    (hcd : v.sinceLastScaledSec < (v.cooldownSeconds : ℚ)) :
    (scaleOneVertex env key).patched = none ∧ (scaleOneVertex env key).isError = false := by
  unfold scaleOneVertex
  rw [if_neg (by simp [hk]), hv]
  dsimp only
  by_cases hdel : v.deleted = true
  · rw [if_pos hdel]
    exact ⟨rfl, rfl⟩
  · rw [if_neg hdel]
    by_cases hsc : ¬ v.scalable = true
    · rw [if_pos hsc]
      exact ⟨rfl, rfl⟩
    · rw [if_neg hsc, if_pos hcd]
      exact ⟨rfl, rfl⟩

/-- Claim C7 witness: a vertex last scaled 10 s ago with a 90 s cooldown is
skipped without a patch and without an error. -/
theorem C7_cooldown_no_patch_witness :
    (scaleOneVertex envC7 "ns/mypl-src").patched = none ∧
    (scaleOneVertex envC7 "ns/mypl-src").isError = false :=
  C7_cooldown_no_patch envC7 "ns/mypl-src" vC7 (by decide) rfl (by norm_num [vC7])

/-- Claim C8: when the vertex Get returns not-found, the evaluation calls
`StopWatching(key)`, issues no patch, and returns success; and on any
watch set satisfying the invariant and containing the key, `StopWatching`
makes `Contains` false and decreases `Length` by one. -/
theorem C8_vertex_not_found (env : EvalEnv) (key : String)
    (hk : (splitSlash key).length = 2) (hv : env.vertexGet = .notFound) :
    scaleOneVertex env key = ⟨true, none, false, false⟩ ∧
    ∀ ws : WatchSet, ws.inv → ws.containsKey key = true →
      (ws.StopWatching key).containsKey key = false ∧
      (ws.StopWatching key).length + 1 = ws.length := by
  refine ⟨?_, fun ws hinv hc => StopWatching_effect hinv hc⟩
  unfold scaleOneVertex
  rw [if_neg (by simp [hk]), hv]

/-- Claim C8 witness: a not-found vertex Get on a singleton watch set. -/
theorem C8_vertex_not_found_witness :
    scaleOneVertex envC8 "ns/mypl-src" = ⟨true, none, false, false⟩ ∧
    (wsC8.StopWatching "ns/mypl-src").containsKey "ns/mypl-src" = false ∧
    (wsC8.StopWatching "ns/mypl-src").length + 1 = wsC8.length := by
  have h := C8_vertex_not_found envC8 "ns/mypl-src" (by decide) rfl
  have hw := h.2 wsC8 ⟨by decide, by decide, fun k => Iff.rfl⟩ (by decide)
  exact ⟨h.1, hw.1, hw.2⟩

/-- Claim C9: `StartWatching` and `StopWatching` are idempotent;
`StartWatching` appends the key at the back exactly when absent and leaves
the set unchanged when present; and after any sequence of these operations
from the initial empty state, the map and the list hold the same keys with
no duplicates. -/
theorem C9_watch_set_algebra :
    (∀ (ws : WatchSet) (k : String),
      (ws.StartWatching k).StartWatching k = ws.StartWatching k ∧
      (ws.StopWatching k).StopWatching k = ws.StopWatching k) ∧
    (∀ (ws : WatchSet) (k : String),
      (ws.containsKey k = false →
        (ws.StartWatching k).map = ws.map ++ [k] ∧
        (ws.StartWatching k).list = ws.list ++ [k]) ∧
      (ws.containsKey k = true → ws.StartWatching k = ws)) ∧
    (∀ ops : List WOp, (WatchSet.applyOps WatchSet.empty ops).inv) := by
  refine ⟨fun ws k => ⟨StartWatching_idem ws k, StopWatching_idem ws k⟩,
    fun ws k => ⟨fun hc => StartWatching_absent hc, fun hc => StartWatching_present hc⟩,
    fun ops => inv_applyOps ⟨List.nodup_nil, List.nodup_nil, fun k => Iff.rfl⟩ ops⟩

/-- Claim C9 witness: the append-if-absent clause and the invariant after a
concrete operation sequence. -/
theorem C9_watch_set_algebra_witness :
    ((⟨["a"], ["a"]⟩ : WatchSet).StartWatching "b").map = ["a"] ++ ["b"] ∧
    ((⟨["a"], ["a"]⟩ : WatchSet).StartWatching "b").list = ["a"] ++ ["b"] ∧
    (WatchSet.applyOps WatchSet.empty [WOp.start "a", WOp.start "b", WOp.stop "a"]).inv := by
  obtain ⟨h1, h2⟩ := (C9_watch_set_algebra.2.1 ⟨["a"], ["a"]⟩ "b").1 (by decide)
  exact ⟨h1, h2, C9_watch_set_algebra.2.2 _⟩

/-- Claim C10: whenever `hasBackPressure` reports direct pressure it also
reports downstream pressure. -/
theorem C10_direct_implies_downstream (thr : ℚ) (cache : String → Option ℤ)
    (pl : PipelineObj) (vName : String)
    (h : (hasBackPressure thr cache pl vName).1 = true) :
    (hasBackPressure thr cache pl vName).2 = true := by
  unfold hasBackPressure at h ⊢
  exact bpLoop_direct_le thr cache (pl.ns ++ "/" ++ pl.name ++ "-") vName
    (getDownstreamEdges pl vName) false h

/-- Claim C10 witness: a concrete cache state with direct pressure on the
edge `src → out`. -/
theorem C10_direct_implies_downstream_witness :
    (hasBackPressure (9/10) cacheC1 plC1 "src").2 = true := by
  apply C10_direct_implies_downstream
  simp +decide [hasBackPressure, getDownstreamEdges, reachable, reachStep, bpLoop,
    cacheC1, plC1, ratioGE]
  norm_num

end NumaflowScaling
